import Mathlib

/-!
Shallow embedding of the `maze-world` core: the maze generation algorithm
and the episode state machine (reset / step / termination / reward logic).
The repository ships only documentation, a quick-start notebook and CI
configuration; the Python package sources (`maze_world/envs`) are not part
of the available tree, so the generator and transition engine below are
modelled from the specification, while the U-maze fixture and the
registration parameters are transcribed from the quick-start notebook.
-/

namespace MazeWorld

/-- A grid cell marker: wall or open floor.  In the quick-start notebook a
cell is encoded as the integer 1 (wall) or 0 (passage). -/
inductive Cell where
  | WALL : Cell
  | PASSAGE : Cell
deriving DecidableEq, Repr

/-- The 4-connected discrete action space of the transition engine. -/
inductive Action where
  | UP : Action
  | DOWN : Action
  | LEFT : Action
  | RIGHT : Action
deriving DecidableEq, Repr

/-- Error taxonomy of the core (spec section 7). -/
inductive MazeError where
  | InvalidParameterError : MazeError
  | InvalidMapError : MazeError
deriving DecidableEq, Repr

/-- A maze grid: a matrix of cell markers, row major. -/
abbrev Grid := List (List Cell)

/-- Position in the grid, as signed coordinates so that a candidate move of
the agent may fall outside the grid before the bounds check rejects it. -/
abbrev Pos := Int × Int

/-- Bounds-checked cell lookup: `none` when the coordinate is outside the
grid. -/
def cellAt (g : Grid) (p : Pos) : Option Cell :=
  if 0 ≤ p.1 ∧ 0 ≤ p.2 then
    match g[p.1.toNat]? with
    | some row => row[p.2.toNat]?
    | none => none
  else none

/-- The Grid Maze Model of the spec: grid plus start and goal cells. -/
structure GridMazeModel where
  grid : Grid
  start : Pos
  goal : Pos
deriving DecidableEq, Repr

/-- Default model (used only as a fallback value, never by the core). -/
instance : Inhabited GridMazeModel := ⟨⟨[], (0, 0), (0, 0)⟩⟩

/-! ### Breadth-first search over passage cells -/

/-- The four axis-aligned neighbours of a position. -/
def neighbors4 (p : Pos) : List Pos :=
  [(p.1 - 1, p.2), (p.1 + 1, p.2), (p.1, p.2 - 1), (p.1, p.2 + 1)]

/-- The next BFS frontier: unvisited passage neighbours of the current
frontier, deduplicated. -/
def bfsNext (g : Grid) (frontier visited : List Pos) : List Pos :=
  ((frontier.flatMap neighbors4).filter
    (fun p => decide (cellAt g p = some Cell.PASSAGE) && !(visited.contains p))).dedup

/-- One-frontier-at-a-time BFS expansion, fuelled; `visited` accumulates
cells in breadth-first discovery order. -/
def bfsAux (g : Grid) : Nat → List Pos → List Pos → List Pos
  | 0, _, visited => visited
  | fuel + 1, frontier, visited =>
    if (bfsNext g frontier visited).isEmpty then visited
    else bfsAux g fuel (bfsNext g frontier visited)
      (visited ++ bfsNext g frontier visited)

/-- All cells discovered by a breadth-first search of passage cells from
`s`, in discovery order (the search also lists `s` itself). -/
def bfsFrom (g : Grid) (s : Pos) : List Pos :=
  bfsAux g (g.length * (g.headD []).length + 1) [s] [s]

/-- Modelled from the spec: the connectivity check — a breadth-first search
from `start` reaches `goal`. -/
def bfsReaches (g : Grid) (s t : Pos) : Bool :=
  decide (t ∈ bfsFrom g s)

/-- Modelled from the spec: goal placement approximately maximising graph
distance — the last cell discovered by BFS from `s` is a cell at maximal
BFS distance from `s`. -/
def bfsFarthest (g : Grid) (s : Pos) : Pos :=
  (bfsFrom g s).getLastD s

/-! ### Episode state and transition engine -/

/-- Episode State of the spec: agent position and step counter. -/
structure EpisodeState where
  agent : Pos
  steps : Nat
deriving DecidableEq, Repr

/-- Reward configuration (spec: terminal reward `+1.0` at the default
scale, a configurable per-step penalty otherwise). -/
structure RewardConfig where
  goalReward : ℚ
  stepPenalty : ℚ
deriving DecidableEq, Repr

/-- The default reward scale: `+1.0` on reaching the goal, `0` otherwise. -/
def defaultRewardConfig : RewardConfig := ⟨1, 0⟩

/-- The candidate coordinate: the agent position shifted one cell in the
action's direction (rows grow downwards, as in the notebook's maps). -/
def shift (p : Pos) : Action → Pos
  | Action.UP => (p.1 - 1, p.2)
  | Action.DOWN => (p.1 + 1, p.2)
  | Action.LEFT => (p.1, p.2 - 1)
  | Action.RIGHT => (p.1, p.2 + 1)

/-- Result of one transition: new episode state, reward, terminated flag. -/
structure StepResult where
  state : EpisodeState
  reward : ℚ
  terminated : Bool
deriving DecidableEq, Repr

/-- Modelled from the spec: the Transition Engine's `step`
(the package sources are absent from the tree).  Movement rule: move to the
candidate cell iff it is within bounds and a `PASSAGE`; otherwise no-op.
Termination: `agent_position == goal`, checked after movement.  Reward:
`goalReward` on termination, `stepPenalty` otherwise.  The step counter
increments by exactly 1 per call. -/
def stepEnv (m : GridMazeModel) (cfg : RewardConfig) (s : EpisodeState)
    (a : Action) : StepResult :=
  let cand := shift s.agent a
  let agentNext := if cellAt m.grid cand = some Cell.PASSAGE then cand else s.agent
  let term : Bool := decide (agentNext = m.goal)
  { state := ⟨agentNext, s.steps + 1⟩
    reward := if term then cfg.goalReward else cfg.stepPenalty
    terminated := term }

/-- Episode state produced by `reset`: agent at `start`, counter 0. -/
def initState (m : GridMazeModel) : EpisodeState :=
  ⟨m.start, 0⟩

/-- A sequence of consecutive `step` calls (ignoring rewards/flags). -/
def runSteps (m : GridMazeModel) (cfg : RewardConfig) (s : EpisodeState) :
    List Action → EpisodeState
  | [] => s
  | a :: rest => runSteps m cfg (stepEnv m cfg s a).state rest

/-- Modelled from the spec: the episode wrapper's truncation flag —
`truncated` once `step_count` reaches the configured step limit
(`max_episode_steps` in the quick-start registrations). -/
def truncatedFlag (limit : Nat) (s : EpisodeState) : Bool :=
  decide (limit ≤ s.steps)

/-! ### Thick-wall lattice encoding

Interior cells live at odd grid coordinates `(2 i + 1, 2 j + 1)`; the wall
segment between two adjacent interior cells is the grid cell midway
between their coordinates (spec section 4.1, step 1). -/

/-- An interior-lattice cell index (row, column). -/
abbrev LCell := Nat × Nat

/-- Number of interior-lattice rows (resp. columns) of a grid dimension:
odd coordinates `1, 3, ...` strictly inside `[0, n)`. -/
def nLat (n : Nat) : Nat := (n - 1) / 2

/-- Grid coordinate of a lattice cell, bounds checked. -/
def cellCoord (nH nW : Nat) (c : LCell) : Option (Nat × Nat) :=
  if c.1 < nH ∧ c.2 < nW then some (2 * c.1 + 1, 2 * c.2 + 1) else none

/-- Grid coordinate of the wall segment between two lattice cells (their
midpoint), bounds checked on both endpoints. -/
def edgeMid (nH nW : Nat) (e : LCell × LCell) : Option (Nat × Nat) :=
  if e.1.1 < nH ∧ e.1.2 < nW ∧ e.2.1 < nH ∧ e.2.2 < nW then
    some (e.1.1 + e.2.1 + 1, e.1.2 + e.2.2 + 1)
  else none

/-- All grid coordinates carved `PASSAGE` by a set of carved lattice cells
and carved lattice edges. -/
def passageCoords (w h : Nat) (cells : List LCell) (edges : List (LCell × LCell)) :
    List (Nat × Nat) :=
  cells.filterMap (cellCoord (nLat h) (nLat w)) ++
    edges.filterMap (edgeMid (nLat h) (nLat w))

/-- Materialise the grid: start entirely `WALL` and carve every coordinate
reached by a carved cell or carved connecting wall. -/
def materialize (w h : Nat) (cells : List LCell) (edges : List (LCell × LCell)) :
    Grid :=
  List.ofFn (n := h) fun r =>
    List.ofFn (n := w) fun c =>
      if (r.val, c.val) ∈ passageCoords w h cells edges then Cell.PASSAGE
      else Cell.WALL

/-! ### Pseudo-random source

Modelled from the spec: randomness is confined to a generator-owned
pseudo-random source seeded explicitly (a linear congruential generator
over the seed), so generation is a pure function of its inputs. -/

/-- One LCG update of the pseudo-random state. -/
def rngNext (s : Nat) : Nat := (1103515245 * s + 12345) % 2147483648

/-- Draw a number below `n` (and the new state); high bits of the LCG
state are used, the low bits having short periods. -/
def randBelow (s n : Nat) : Nat × Nat :=
  let s2 := rngNext s
  ((s2 / 65536) % max n 1, s2)

/-! ### Loop-erased random-walk carving (Wilson's-algorithm style) -/

/-- Direction index drawn by the walk. -/
def dirOfNat : Nat → Action
  | 0 => Action.UP
  | 1 => Action.DOWN
  | 2 => Action.LEFT
  | _ => Action.RIGHT

/-- One lattice step in a direction, bounds checked. -/
def stepLat (nH nW : Nat) (c : LCell) (a : Action) : Option LCell :=
  match a with
  | Action.UP => if 1 ≤ c.1 then some (c.1 - 1, c.2) else none
  | Action.DOWN => if c.1 + 1 < nH then some (c.1 + 1, c.2) else none
  | Action.LEFT => if 1 ≤ c.2 then some (c.1, c.2 - 1) else none
  | Action.RIGHT => if c.2 + 1 < nW then some (c.1, c.2 + 1) else none

/-- Modelled from the spec: one loop-erased random walk from the head of
`path` until it hits a cell already in the tree (spec section 4.1, step 3;
section 9: iterative walk with a path stack, loop erasure truncates the
stack back to the revisited cell).  Returns the loop-erased path ending at
the tree-connection cell, or `none` on fuel exhaustion. -/
def walkAux (nH nW : Nat) (part : LCell → Bool) (tree : List LCell) :
    Nat → Nat → List LCell → Option (List LCell) × Nat
  | 0, rng, _ => (none, rng)
  | fuel + 1, rng, path =>
    let cur := path.headD (0, 0)
    let draw := randBelow rng 4
    match stepLat nH nW cur (dirOfNat draw.1) with
    | none => walkAux nH nW part tree fuel draw.2 path
    | some nxt =>
      if part nxt then
        if tree.contains nxt then (some (nxt :: path), draw.2)
        else if path.contains nxt then
          walkAux nH nW part tree fuel draw.2 (path.dropWhile (fun x => x ≠ nxt))
        else walkAux nH nW part tree fuel draw.2 (nxt :: path)
      else walkAux nH nW part tree fuel draw.2 path

/-- The carved lattice edges along a walk path (consecutive pairs). -/
def pathEdges : List LCell → List (LCell × LCell)
  | [] => []
  | [_] => []
  | a :: b :: rest => (a, b) :: pathEdges (b :: rest)

/-- Modelled from the spec: the Wilson-style main loop — repeat until all
eligible cells are incorporated: walk from an unvisited cell to the tree,
then carve every cell and connecting wall along the loop-erased path
(spec section 4.1, step 3).  A walk whose fuel runs out leaves its cell
unincorporated (its wall block stays). -/
def wilsonAux (nH nW : Nat) (part : LCell → Bool) (wfuel : Nat) :
    List LCell → Nat → List LCell → List (LCell × LCell) →
    List LCell × List (LCell × LCell) × Nat
  | [], rng, tree, edges => (tree, edges, rng)
  | c :: rest, rng, tree, edges =>
    if tree.contains c then wilsonAux nH nW part wfuel rest rng tree edges
    else
      match walkAux nH nW part tree wfuel rng [c] with
      | (some fullPath, rng2) =>
        wilsonAux nH nW part wfuel rest rng2 (fullPath ++ tree)
          (pathEdges fullPath ++ edges)
      | (none, rng2) => wilsonAux nH nW part wfuel rest rng2 tree edges

/-- All lattice cells in row-major order. -/
def latticeCells (nH nW : Nat) : List LCell :=
  (List.range nH).flatMap fun i => (List.range nW).map fun j => (i, j)

/-- All candidate interior walls: unordered adjacent lattice pairs, listed
as (cell, right neighbour) and (cell, down neighbour). -/
def latticeEdges (nH nW : Nat) : List (LCell × LCell) :=
  (latticeCells nH nW).flatMap fun c =>
    (if c.2 + 1 < nW then [(c, (c.1, c.2 + 1))] else []) ++
      (if c.1 + 1 < nH then [(c, (c.1 + 1, c.2))] else [])

/-- `⌈q * n⌉` for a non-negative rational `q`, as a natural number,
computed on the numerator and denominator directly. -/
def ratScaleCeil (q : ℚ) (n : Nat) : Nat :=
  (q.num.toNat * n + q.den - 1) / q.den

/-- Whether a draw in `[0, 100)` falls below `q * 100`: the acceptance
test of the braiding pass, computed on the numerator and denominator
directly. -/
def drawBelow (draw : Nat) (q : ℚ) : Bool :=
  decide ((draw : Int) * q.den < q.num * 100)

/-- Modelled from the spec: the complexity post-pass — with probability
scaled by `complexity`, carve additional interior walls adjacent to two
already-`PASSAGE` cells, introducing cycles/braids (spec section 4.1,
step 4). -/
def braidPass (comp : ℚ) (tree : List LCell)
    (cand : List (LCell × LCell)) (rng : Nat) : List (LCell × LCell) × Nat :=
  cand.foldl
    (fun acc e =>
      if tree.contains e.1 && tree.contains e.2 then
        let draw := randBelow acc.2 100
        if drawBelow draw.1 comp then (e :: acc.1, draw.2) else (acc.1, draw.2)
      else acc)
    ([], rng)

/-- Modelled from the spec: the carving stage of `generate` — `density`
fixes the fraction of the interior lattice participating in carving, a
Wilson-style loop-erased random walk incorporates the participating cells
into a spanning tree, and the complexity post-pass braids it.  Returns the
carved lattice cells and carved lattice edges. -/
def carveCells (w h : Nat) (comp dens : ℚ) (seed : Nat) :
    List LCell × List (LCell × LCell) :=
  let nH := nLat h
  let nW := nLat w
  let total := nH * nW
  let k := max 1 (ratScaleCeil dens total)
  let part : LCell → Bool := fun c => decide (c.1 * nW + c.2 < k)
  let pending := (latticeCells nH nW).filter part
  match pending with
  | [] => ([], [])
  | c0 :: rest =>
    let wfuel := 32 * (total + 1)
    let carved := wilsonAux nH nW part wfuel rest (rngNext seed) [c0] []
    let extra := braidPass comp carved.1 (latticeEdges nH nW) carved.2.2
    (carved.1, carved.2.1 ++ extra.1)

/-! ### The generator and fixed-map acceptance -/

/-- Grid coordinate (as a position) of a lattice cell, unchecked. -/
def cellPos (c : LCell) : Pos := ((2 * c.1 + 1 : Nat), (2 * c.2 + 1 : Nat))

/-- Modelled from the spec: start/goal placement and validation — `start`
at the root of the carved tree, `goal` at a passage cell approximately
maximising graph distance from `start`; both are validated to be `PASSAGE`
and connected (spec section 4.1, step 5), failing with
`InvalidMapError` otherwise. -/
def buildFromCarve (w h : Nat) (cells : List LCell)
    (edges : List (LCell × LCell)) : Except MazeError GridMazeModel :=
  let grid := materialize w h cells edges
  let start := cellPos (cells.headD (0, 0))
  let goal := bfsFarthest grid start
  if cellAt grid start = some Cell.PASSAGE ∧ cellAt grid goal = some Cell.PASSAGE ∧
      bfsReaches grid start goal = true then
    Except.ok ⟨grid, start, goal⟩
  else Except.error MazeError.InvalidMapError

/-- Modelled from the spec: `generate(width, height, complexity, density,
seed) -> GridMazeModel`, deterministic given identical inputs including
the seed; fails with `InvalidParameterError` when width/height < 3 or
complexity/density outside `[0, 1]` (spec section 4.1). -/
def generate (w h : Nat) (comp dens : ℚ) (seed : Nat) :
    Except MazeError GridMazeModel :=
  if 3 ≤ w ∧ 3 ≤ h ∧ 0 ≤ comp ∧ comp ≤ 1 ∧ 0 ≤ dens ∧ dens ≤ 1 then
    let carved := carveCells w h comp dens seed
    buildFromCarve w h carved.1 carved.2
  else Except.error MazeError.InvalidParameterError

/-- Modelled from the spec: acceptance of an externally supplied fixed map
— the core validates dimension agreement, that start and goal are
`PASSAGE`, and connectivity, failing with `InvalidMapError` otherwise
(spec section 6). -/
def acceptFixedMap (w h : Nat) (g : Grid) (s t : Pos) :
    Except MazeError GridMazeModel :=
  if g.length = h ∧ (∀ row ∈ g, row.length = w) ∧
      cellAt g s = some Cell.PASSAGE ∧ cellAt g t = some Cell.PASSAGE ∧
      bfsReaches g s t = true then
    Except.ok ⟨g, s, t⟩
  else Except.error MazeError.InvalidMapError

/-- An environment built around a caller-supplied `generate_maze_fn`.  The
callback is invoked anew on every reset (quick-start: "This function would
be called on every reset"); the episode index records the occasion of the
call so that per-call behaviour is explicit. -/
structure FixedMazeEnv where
  width : Nat
  height : Nat
  genFn : Nat → Grid × Pos × Pos

/-- Modelled from the spec: `reset` of an environment with a
`generate_maze_fn` — call the function, validate and adopt its returned
map, agent location and target location, and initialise the episode. -/
def resetEnv (e : FixedMazeEnv) (episode : Nat) :
    Except MazeError (GridMazeModel × EpisodeState) :=
  let produced := e.genFn episode
  match acceptFixedMap e.width e.height produced.1 produced.2.1 produced.2.2 with
  | Except.ok m => Except.ok (m, initState m)
  | Except.error err => Except.error err

/-! ### The quick-start U-maze fixture

Transcribed from `docs/source/quick-start.ipynb`: a fixed 9-row by
10-column map (1 = wall, 0 = passage), `agent_loc = (1, 1)`,
`target_loc = (7, 1)`, registered with `maze_height = 9`,
`maze_width = 10`, `max_episode_steps = 200`. -/

/-- Decode the notebook's 0/1 map encoding into cell markers. -/
def ofBits (xs : List (List Nat)) : Grid :=
  xs.map fun row => row.map fun b => if b = 1 then Cell.WALL else Cell.PASSAGE

/-- The U-maze map literal of the quick-start notebook. -/
def uMazeGrid : Grid := ofBits
  [[1, 1, 1, 1, 1, 1, 1, 1, 1, 1],
   [1, 0, 0, 0, 0, 0, 0, 0, 0, 1],
   [1, 0, 0, 0, 0, 0, 0, 0, 0, 1],
   [1, 1, 1, 1, 1, 1, 1, 0, 0, 1],
   [1, 1, 1, 1, 1, 1, 1, 0, 0, 1],
   [1, 1, 1, 1, 1, 1, 1, 0, 0, 1],
   [1, 0, 0, 0, 0, 0, 0, 0, 0, 1],
   [1, 0, 0, 0, 0, 0, 0, 0, 0, 1],
   [1, 1, 1, 1, 1, 1, 1, 1, 1, 1]]

/-- The U-maze as a Grid Maze Model: start `(1, 1)`, goal `(7, 1)`. -/
def uMazeModel : GridMazeModel := ⟨uMazeGrid, (1, 1), (7, 1)⟩

/-- The `UMaze-v0` environment of the notebook: `generate_maze_fn`
returning the fixed map on every reset, `maze_height = 9`,
`maze_width = 10`. -/
def uMazeEnv : FixedMazeEnv :=
  ⟨10, 9, fun _ => (uMazeGrid, (1, 1), (7, 1))⟩

/-! ### Reachability through passage cells -/

/-- `Reaches g s t`: there is a path of 4-adjacent cells from `s` to `t`
whose cells after `s` are all `PASSAGE` in `g`. -/
inductive Reaches (g : Grid) (s : Pos) : Pos → Prop where
  | refl : Reaches g s s
  | step {p q : Pos} : Reaches g s p → q ∈ neighbors4 p →
      cellAt g q = some Cell.PASSAGE → Reaches g s q

/-- The maze `generate 5 5 0 1 0` evaluates to (used as a concrete
generated-maze witness). -/
def sampleMaze : GridMazeModel :=
  ⟨ofBits
    [[1, 1, 1, 1, 1],
     [1, 0, 1, 0, 1],
     [1, 0, 1, 0, 1],
     [1, 0, 0, 0, 1],
     [1, 1, 1, 1, 1]], (1, 1), (1, 3)⟩

end MazeWorld

-- Decidable equality on `Except`, for evaluating the generator's result
-- in concrete witnesses.
deriving instance DecidableEq for Except

namespace MazeWorld

/-! ### Transition-engine lemmas -/

lemma stepEnv_state_agent (m : GridMazeModel) (cfg : RewardConfig)
    (s : EpisodeState) (a : Action) :
    (stepEnv m cfg s a).state.agent =
      if cellAt m.grid (shift s.agent a) = some Cell.PASSAGE then shift s.agent a
      else s.agent := rfl

lemma stepEnv_state_steps (m : GridMazeModel) (cfg : RewardConfig)
    (s : EpisodeState) (a : Action) :
    (stepEnv m cfg s a).state.steps = s.steps + 1 := rfl

lemma stepEnv_terminated (m : GridMazeModel) (cfg : RewardConfig)
    (s : EpisodeState) (a : Action) :
    (stepEnv m cfg s a).terminated =
      decide ((stepEnv m cfg s a).state.agent = m.goal) := rfl

lemma stepEnv_reward (m : GridMazeModel) (cfg : RewardConfig)
    (s : EpisodeState) (a : Action) :
    (stepEnv m cfg s a).reward =
      if (stepEnv m cfg s a).terminated then cfg.goalReward else cfg.stepPenalty := by
  show (if decide _ = true then _ else _) = _
  rfl

lemma runSteps_steps (m : GridMazeModel) (cfg : RewardConfig) :
    ∀ (acts : List Action) (s : EpisodeState),
      (runSteps m cfg s acts).steps = s.steps + acts.length := by
  intro acts
  induction acts with
  | nil => intro s; simp [runSteps]
  | cons a rest ih =>
    intro s
    rw [runSteps, ih, stepEnv_state_steps]
    simp
    omega

/-- Claim C2: a single call to `step` sets `terminated = true` if and only
if the agent position resulting after the movement rule equals the goal. -/
theorem step_terminated_iff_goal (m : GridMazeModel) (cfg : RewardConfig)
    (s : EpisodeState) (a : Action) :
    (stepEnv m cfg s a).terminated = true ↔
      (stepEnv m cfg s a).state.agent = m.goal := by
  rw [stepEnv_terminated]
  exact decide_eq_true_iff

/-- Claim C5: after `n` consecutive `step` calls from a reset state (and
no intervening reset), `step_count = n`; each single call increments the
counter by exactly 1, no-op move or not. -/
theorem step_count_after_n_steps (m : GridMazeModel) (cfg : RewardConfig)
    (acts : List Action) :
    (runSteps m cfg (initState m) acts).steps = acts.length ∧
      ∀ (s : EpisodeState) (a : Action),
        (stepEnv m cfg s a).state.steps = s.steps + 1 := by
  refine ⟨?_, fun s a => stepEnv_state_steps m cfg s a⟩
  rw [runSteps_steps]
  simp [initState]

/-- Claim C3: when the candidate cell in the action's direction is a wall
or out of bounds, `step` leaves the agent in place while still counting
the step; when the candidate is an in-bounds passage the agent moves to
it.  On the quick-start U-maze from `start = (1, 1)`: `(1, 2)` is
`PASSAGE` and stepping RIGHT moves the agent there; `(0, 1)` is `WALL`
and stepping UP leaves the agent at `(1, 1)`. -/
theorem step_movement_rule :
    (∀ (m : GridMazeModel) (cfg : RewardConfig) (s : EpisodeState) (a : Action),
      cellAt m.grid (shift s.agent a) ≠ some Cell.PASSAGE →
        (stepEnv m cfg s a).state.agent = s.agent ∧
          (stepEnv m cfg s a).state.steps = s.steps + 1) ∧
    (∀ (m : GridMazeModel) (cfg : RewardConfig) (s : EpisodeState) (a : Action),
      cellAt m.grid (shift s.agent a) = some Cell.PASSAGE →
        (stepEnv m cfg s a).state.agent = shift s.agent a) ∧
    cellAt uMazeGrid (1, 2) = some Cell.PASSAGE ∧
    (stepEnv uMazeModel defaultRewardConfig (initState uMazeModel)
      Action.RIGHT).state.agent = (1, 2) ∧
    cellAt uMazeGrid (0, 1) = some Cell.WALL ∧
    (stepEnv uMazeModel defaultRewardConfig (initState uMazeModel)
      Action.UP).state.agent = (1, 1) := by
  refine ⟨fun m cfg s a h => ?_, fun m cfg s a h => ?_, by decide, by decide,
    by decide, by decide⟩
  · rw [stepEnv_state_agent, if_neg h]
    exact ⟨rfl, stepEnv_state_steps m cfg s a⟩
  · rw [stepEnv_state_agent, if_pos h]

/-- Witness for C3: the two universally quantified movement rules applied
on the U-maze at `start = (1, 1)` — UP bumps into the wall `(0, 1)` while
the counter advances, RIGHT moves into the passage `(1, 2)`. -/
theorem step_movement_rule_witness :
    ((stepEnv uMazeModel defaultRewardConfig (initState uMazeModel)
        Action.UP).state.agent = (1, 1) ∧
      (stepEnv uMazeModel defaultRewardConfig (initState uMazeModel)
        Action.UP).state.steps = 0 + 1) ∧
    (stepEnv uMazeModel defaultRewardConfig (initState uMazeModel)
      Action.RIGHT).state.agent = (1, 2) :=
  ⟨step_movement_rule.1 uMazeModel defaultRewardConfig (initState uMazeModel)
      Action.UP (by decide),
    step_movement_rule.2.1 uMazeModel defaultRewardConfig (initState uMazeModel)
      Action.RIGHT (by decide)⟩

/-- Claim C8: a step that reaches the goal returns the terminal reward —
`+1.0` at the default scale — together with `terminated = true`; a step
that does not reach the goal returns the configured non-terminal reward.
Concretely on the U-maze: from `(6, 1)`, adjacent to the goal `(7, 1)`,
the DOWN step yields reward `1` and `terminated = true`. -/
theorem step_reward_rule :
    (∀ (m : GridMazeModel) (cfg : RewardConfig) (s : EpisodeState) (a : Action),
      (stepEnv m cfg s a).terminated = true →
        (stepEnv m cfg s a).reward = cfg.goalReward) ∧
    (∀ (m : GridMazeModel) (cfg : RewardConfig) (s : EpisodeState) (a : Action),
      (stepEnv m cfg s a).terminated = false →
        (stepEnv m cfg s a).reward = cfg.stepPenalty) ∧
    defaultRewardConfig.goalReward = 1 ∧
    (stepEnv uMazeModel defaultRewardConfig ⟨(6, 1), 0⟩ Action.DOWN).reward = 1 ∧
    (stepEnv uMazeModel defaultRewardConfig ⟨(6, 1), 0⟩ Action.DOWN).terminated
      = true := by
  refine ⟨fun m cfg s a h => ?_, fun m cfg s a h => ?_, rfl, by decide, by decide⟩
  · rw [stepEnv_reward, h, if_pos rfl]
  · rw [stepEnv_reward, h]
    rfl

/-- Witness for C8: both reward rules applied on the U-maze — the DOWN
step from `(6, 1)` into the goal earns the terminal reward, the UP step
from the start earns the per-step reward. -/
theorem step_reward_rule_witness :
    (stepEnv uMazeModel defaultRewardConfig ⟨(6, 1), 0⟩ Action.DOWN).reward =
      defaultRewardConfig.goalReward ∧
    (stepEnv uMazeModel defaultRewardConfig (initState uMazeModel)
      Action.UP).reward = defaultRewardConfig.stepPenalty :=
  ⟨step_reward_rule.1 uMazeModel defaultRewardConfig ⟨(6, 1), 0⟩ Action.DOWN
      (by decide),
    step_reward_rule.2.1 uMazeModel defaultRewardConfig (initState uMazeModel)
      Action.UP (by decide)⟩

/-- Claim C9: with the quick-start registration limit
`max_episode_steps = 200`, an episode reset followed by 200 (or more)
steps has `truncated = true`, so the sampling loop terminates no later
than the 200th step. -/
theorem truncated_by_step_limit (m : GridMazeModel) (cfg : RewardConfig)
    (acts : List Action) (h : 200 ≤ acts.length) :
    truncatedFlag 200 (runSteps m cfg (initState m) acts) = true := by
  rw [truncatedFlag, runSteps_steps]
  simpa [initState] using h

/-- Witness for C9: 200 arbitrary steps on the U-maze trip the truncation
flag. -/
theorem truncated_by_step_limit_witness :
    truncatedFlag 200 (runSteps uMazeModel defaultRewardConfig
      (initState uMazeModel) (List.replicate 200 Action.UP)) = true :=
  truncated_by_step_limit uMazeModel defaultRewardConfig
    (List.replicate 200 Action.UP) (by rw [List.length_replicate])

/-! ### Generator branching lemmas -/

lemma buildFromCarve_ne_invalidParam (w h : Nat) (cs : List LCell)
    (es : List (LCell × LCell)) :
    buildFromCarve w h cs es ≠ Except.error MazeError.InvalidParameterError := by
  unfold buildFromCarve
  dsimp only
  split
  · simp
  · simp

lemma buildFromCarve_ok (w h : Nat) (cs : List LCell) (es : List (LCell × LCell))
    (m : GridMazeModel) (hm : buildFromCarve w h cs es = Except.ok m) :
    m.grid = materialize w h cs es ∧
      bfsReaches m.grid m.start m.goal = true ∧
      cellAt m.grid m.start = some Cell.PASSAGE ∧
      cellAt m.grid m.goal = some Cell.PASSAGE := by
  unfold buildFromCarve at hm
  dsimp only at hm
  split at hm
  next hcond =>
    cases hm
    exact ⟨rfl, hcond.2.2, hcond.1, hcond.2.1⟩
  next => cases hm

lemma generate_ok (w h : Nat) (comp dens : ℚ) (seed : Nat) (m : GridMazeModel)
    (hm : generate w h comp dens seed = Except.ok m) :
    3 ≤ w ∧ 3 ≤ h ∧
      buildFromCarve w h (carveCells w h comp dens seed).1
        (carveCells w h comp dens seed).2 = Except.ok m := by
  unfold generate at hm
  split at hm
  next hv =>
    dsimp only at hm
    exact ⟨hv.1, hv.2.1, hm⟩
  next => cases hm

lemma resetEnv_of_accept (e : FixedMazeEnv) (k : Nat) (m : GridMazeModel)
    (hacc : acceptFixedMap e.width e.height (e.genFn k).1 (e.genFn k).2.1
      (e.genFn k).2.2 = Except.ok m) :
    resetEnv e k = Except.ok (m, initState m) := by
  unfold resetEnv
  dsimp only
  rw [hacc]

lemma acceptFixedMap_ok (w h : Nat) (g : Grid) (s t : Pos) (m : GridMazeModel)
    (hm : acceptFixedMap w h g s t = Except.ok m) :
    m = ⟨g, s, t⟩ ∧ bfsReaches g s t = true ∧
      cellAt g s = some Cell.PASSAGE ∧ cellAt g t = some Cell.PASSAGE := by
  unfold acceptFixedMap at hm
  split at hm
  · cases hm
    next hcond => exact ⟨rfl, hcond.2.2.2.2, hcond.2.2.1, hcond.2.2.2.1⟩
  · cases hm

/-- Claim C4: the generator is a deterministic function of its inputs —
two calls of `generate` with identical arguments, the seed included,
yield bit-identical grids and identical start and goal coordinates. -/
theorem generate_deterministic (w h : Nat) (comp dens : ℚ) (seed : Nat)
    (m1 m2 : GridMazeModel)
    (h1 : generate w h comp dens seed = Except.ok m1)
    (h2 : generate w h comp dens seed = Except.ok m2) :
    m1.grid = m2.grid ∧ m1.start = m2.start ∧ m1.goal = m2.goal := by
  rw [h1] at h2
  cases h2
  exact ⟨rfl, rfl, rfl⟩

/-- Witness for C4: `generate 5 5 0 1 0` evaluated twice yields the same
concrete maze `sampleMaze`. -/
theorem generate_deterministic_witness :
    sampleMaze.grid = sampleMaze.grid ∧ sampleMaze.start = sampleMaze.start ∧
      sampleMaze.goal = sampleMaze.goal :=
  generate_deterministic 5 5 0 1 0 sampleMaze sampleMaze (by decide) (by decide)

/-- Claim C7: generation fails with `InvalidParameterError` exactly when
`maze_width < 3` or `maze_height < 3` or complexity or density fall
outside `[0, 1]`; the boundary values complexity = 1 and density = 1 are
accepted. -/
theorem generate_parameter_validation (w h : Nat) (comp dens : ℚ) (seed : Nat) :
    (generate w h comp dens seed = Except.error MazeError.InvalidParameterError ↔
      (w < 3 ∨ h < 3 ∨ comp < 0 ∨ 1 < comp ∨ dens < 0 ∨ 1 < dens)) ∧
    (3 ≤ w → 3 ≤ h →
      generate w h 1 1 seed ≠ Except.error MazeError.InvalidParameterError) := by
  constructor
  · unfold generate
    split
    next hv =>
      constructor
      · intro he
        exact absurd he (buildFromCarve_ne_invalidParam w h _ _)
      · intro hd
        obtain ⟨h1, h2, h3, h4, h5, h6⟩ := hv
        rcases hd with h7 | h7 | h7 | h7 | h7 | h7
        · omega
        · omega
        · exact absurd h3 (not_le.mpr h7)
        · exact absurd h4 (not_le.mpr h7)
        · exact absurd h5 (not_le.mpr h7)
        · exact absurd h6 (not_le.mpr h7)
    next hv =>
      constructor
      · intro _
        by_contra hd
        push_neg at hd
        obtain ⟨h1, h2, h3, h4, h5, h6⟩ := hd
        exact hv ⟨by omega, by omega, h3, h4, h5, h6⟩
      · intro _
        rfl
  · intro h1 h2
    unfold generate
    rw [if_pos ⟨h1, h2, by norm_num, by norm_num, by norm_num, by norm_num⟩]
    exact buildFromCarve_ne_invalidParam w h _ _

/-- Witness for C7: width 2 is rejected with `InvalidParameterError`,
complexity 2 is rejected, and width 5, height 5, complexity 1, density 1
are accepted (indeed, generation succeeds there). -/
theorem generate_parameter_validation_witness :
    generate 2 5 0 0 0 = Except.error MazeError.InvalidParameterError ∧
    generate 5 5 2 0 0 = Except.error MazeError.InvalidParameterError ∧
    generate 5 5 1 1 0 ≠ Except.error MazeError.InvalidParameterError :=
  ⟨(generate_parameter_validation 2 5 0 0 0).1.mpr (by norm_num),
    (generate_parameter_validation 5 5 2 0 0).1.mpr (by norm_num),
    (generate_parameter_validation 5 5 1 1 0).2 (by norm_num) (by norm_num)⟩

/-- Claim C10: for an environment constructed with a `generate_maze_fn`,
every `reset` invokes the callback for that episode and adopts the
returned map, agent location and target location; the quick-start U-maze
callback returns a 9-row by 10-column (non-square, even-width) map, and
every reset of `UMaze-v0` adopts it. -/
theorem reset_adopts_callback_map :
    (∀ (e : FixedMazeEnv) (k : Nat) (m : GridMazeModel) (st : EpisodeState),
      resetEnv e k = Except.ok (m, st) →
        m.grid = (e.genFn k).1 ∧ m.start = (e.genFn k).2.1 ∧
          m.goal = (e.genFn k).2.2 ∧ st = initState m) ∧
    (∀ k, resetEnv uMazeEnv k = Except.ok (uMazeModel, initState uMazeModel)) ∧
    uMazeGrid.length = 9 ∧ (∀ row ∈ uMazeGrid, row.length = 10) := by
  refine ⟨?_, ?_, by decide, by decide⟩
  · intro e k m st h
    unfold resetEnv at h
    dsimp only at h
    cases hacc : acceptFixedMap e.width e.height (e.genFn k).1 (e.genFn k).2.1
        (e.genFn k).2.2 with
    | ok m2 =>
      rw [hacc] at h
      simp only [] at h
      cases h
      obtain ⟨hm2, -⟩ := acceptFixedMap_ok _ _ _ _ _ _ hacc
      subst hm2
      exact ⟨rfl, rfl, rfl, rfl⟩
    | error err =>
      rw [hacc] at h
      cases h
  · intro k
    have hacc : acceptFixedMap uMazeEnv.width uMazeEnv.height
        (uMazeEnv.genFn k).1 (uMazeEnv.genFn k).2.1 (uMazeEnv.genFn k).2.2 =
        Except.ok uMazeModel := by
      show acceptFixedMap 10 9 uMazeGrid (1, 1) (7, 1) = Except.ok uMazeModel
      decide
    exact resetEnv_of_accept uMazeEnv k uMazeModel hacc

/-- Witness for C10: the universally quantified adoption rule applied to
the `UMaze-v0` environment at episode 0. -/
theorem reset_adopts_callback_map_witness :
    uMazeModel.grid = (uMazeEnv.genFn 0).1 ∧
      uMazeModel.start = (uMazeEnv.genFn 0).2.1 ∧
      uMazeModel.goal = (uMazeEnv.genFn 0).2.2 ∧
      initState uMazeModel = initState uMazeModel :=
  reset_adopts_callback_map.1 uMazeEnv 0 uMazeModel (initState uMazeModel)
    (by decide)

/-! ### Boundary containment of generated mazes -/

lemma passageCoords_interior (w h : Nat) (cs : List LCell)
    (es : List (LCell × LCell)) (p : Nat × Nat)
    (hp : p ∈ passageCoords w h cs es) :
    1 ≤ p.1 ∧ p.1 + 2 ≤ h ∧ 1 ≤ p.2 ∧ p.2 + 2 ≤ w := by
  unfold passageCoords at hp
  rcases List.mem_append.mp hp with hp | hp
  · rcases List.mem_filterMap.mp hp with ⟨c, -, hc⟩
    unfold cellCoord at hc
    split at hc
    next hb =>
      cases hc
      have h1 : c.1 < nLat h := hb.1
      have h2 : c.2 < nLat w := hb.2
      unfold nLat at h1 h2
      dsimp only
      omega
    next => cases hc
  · rcases List.mem_filterMap.mp hp with ⟨e, -, he⟩
    unfold edgeMid at he
    split at he
    next hb =>
      cases he
      obtain ⟨b1, b2, b3, b4⟩ := hb
      unfold nLat at b1 b2 b3 b4
      dsimp only
      omega
    next => cases he

lemma materialize_cellAt (w h : Nat) (cs : List LCell)
    (es : List (LCell × LCell)) (r c : Int) (hr0 : 0 ≤ r) (hrh : r < (h : Int))
    (hc0 : 0 ≤ c) (hcw : c < (w : Int)) :
    cellAt (materialize w h cs es) (r, c) =
      some (if (r.toNat, c.toNat) ∈ passageCoords w h cs es then Cell.PASSAGE
        else Cell.WALL) := by
  unfold cellAt materialize
  rw [if_pos ⟨hr0, hc0⟩]
  rw [List.getElem?_ofFn]
  unfold List.ofFnNthVal
  rw [dif_pos (show (r, c).1.toNat < h by omega)]
  dsimp only
  rw [List.getElem?_ofFn]
  unfold List.ofFnNthVal
  rw [dif_pos (show (r, c).2.toNat < w by omega)]

/-- Claim C6: every cell on the outer boundary ring (first and last row,
first and last column) of a maze produced by the generator is `WALL`. -/
theorem generated_maze_boundary_walls (w h : Nat) (comp dens : ℚ) (seed : Nat)
    (m : GridMazeModel) (hm : generate w h comp dens seed = Except.ok m)
    (r c : Int) (hr0 : 0 ≤ r) (hrh : r < (h : Int)) (hc0 : 0 ≤ c)
    (hcw : c < (w : Int))
    (hb : r = 0 ∨ r = (h : Int) - 1 ∨ c = 0 ∨ c = (w : Int) - 1) :
    cellAt m.grid (r, c) = some Cell.WALL := by
  obtain ⟨-, -, hbc⟩ := generate_ok w h comp dens seed m hm
  obtain ⟨hgrid, -, -, -⟩ := buildFromCarve_ok _ _ _ _ _ hbc
  rw [hgrid, materialize_cellAt w h _ _ r c hr0 hrh hc0 hcw]
  have hnot : (r.toNat, c.toNat) ∉
      passageCoords w h (carveCells w h comp dens seed).1
        (carveCells w h comp dens seed).2 := by
    intro hmem
    have hint := passageCoords_interior w h _ _ _ hmem
    dsimp only at hint
    rcases hb with hb | hb | hb | hb <;> omega
  rw [if_neg hnot]

/-- Witness for C6: the concrete maze `generate 5 5 0 1 0` has walls at
the four corners of its boundary ring. -/
theorem generated_maze_boundary_walls_witness :
    cellAt sampleMaze.grid (0, 0) = some Cell.WALL ∧
      cellAt sampleMaze.grid (4, 2) = some Cell.WALL ∧
      cellAt sampleMaze.grid (2, 4) = some Cell.WALL :=
  ⟨generated_maze_boundary_walls 5 5 0 1 0 sampleMaze (by decide) 0 0
      (by norm_num) (by norm_num) (by norm_num) (by norm_num) (Or.inl rfl),
    generated_maze_boundary_walls 5 5 0 1 0 sampleMaze (by decide) 4 2
      (by norm_num) (by norm_num) (by norm_num) (by norm_num)
      (Or.inr (Or.inl (by norm_num))),
    generated_maze_boundary_walls 5 5 0 1 0 sampleMaze (by decide) 2 4
      (by norm_num) (by norm_num) (by norm_num) (by norm_num)
      (Or.inr (Or.inr (Or.inr (by norm_num))))⟩

/-! ### BFS soundness and connectivity -/

lemma bfsNext_mem (g : Grid) (fr vis : List Pos) (p : Pos)
    (hp : p ∈ bfsNext g fr vis) :
    (∃ q ∈ fr, p ∈ neighbors4 q) ∧ cellAt g p = some Cell.PASSAGE := by
  unfold bfsNext at hp
  rw [List.mem_dedup, List.mem_filter] at hp
  obtain ⟨hmem, hcond⟩ := hp
  rw [List.mem_flatMap] at hmem
  refine ⟨hmem, ?_⟩
  exact of_decide_eq_true (Bool.and_elim_left hcond)

lemma bfsAux_sound (g : Grid) (s : Pos) :
    ∀ (fuel : Nat) (fr vis : List Pos),
      (∀ p ∈ fr, Reaches g s p) → (∀ p ∈ vis, Reaches g s p) →
      ∀ p ∈ bfsAux g fuel fr vis, Reaches g s p := by
  intro fuel
  induction fuel with
  | zero =>
    intro fr vis hf hv p hp
    exact hv p hp
  | succ n ih =>
    intro fr vis hf hv p hp
    have hnext : ∀ q ∈ bfsNext g fr vis, Reaches g s q := by
      intro q hq
      obtain ⟨⟨x, hx, hqx⟩, hpass⟩ := bfsNext_mem g fr vis q hq
      exact Reaches.step (hf x hx) hqx hpass
    rw [bfsAux] at hp
    split at hp
    · exact hv p hp
    · refine ih (bfsNext g fr vis) (vis ++ bfsNext g fr vis) hnext ?_ p hp
      intro q hq
      rcases List.mem_append.mp hq with h | h
      · exact hv q h
      · exact hnext q h

lemma bfsReaches_sound (g : Grid) (s t : Pos)
    (h : bfsReaches g s t = true) : Reaches g s t := by
  unfold bfsReaches bfsFrom at h
  refine bfsAux_sound g s _ [s] [s] ?_ ?_ t (of_decide_eq_true h)
  · intro p hp
    rw [List.mem_singleton] at hp
    exact hp ▸ Reaches.refl
  · intro p hp
    rw [List.mem_singleton] at hp
    exact hp ▸ Reaches.refl

/-- Claim C1: every maze produced by the generator, and every externally
supplied fixed map accepted at construction, is connected — a
breadth-first search from `start` reaches `goal`, hence there is a path
of 4-adjacent `PASSAGE` cells from `start` to `goal`. -/
theorem maze_connectivity :
    (∀ (w h : Nat) (comp dens : ℚ) (seed : Nat) (m : GridMazeModel),
      generate w h comp dens seed = Except.ok m →
        bfsReaches m.grid m.start m.goal = true ∧
          Reaches m.grid m.start m.goal) ∧
    (∀ (w h : Nat) (g : Grid) (s t : Pos) (m : GridMazeModel),
      acceptFixedMap w h g s t = Except.ok m →
        bfsReaches m.grid m.start m.goal = true ∧
          Reaches m.grid m.start m.goal) := by
  constructor
  · intro w h comp dens seed m hm
    obtain ⟨-, -, hbc⟩ := generate_ok w h comp dens seed m hm
    obtain ⟨-, hb, -, -⟩ := buildFromCarve_ok _ _ _ _ _ hbc
    exact ⟨hb, bfsReaches_sound _ _ _ hb⟩
  · intro w h g s t m hm
    obtain ⟨hm2, hb, -, -⟩ := acceptFixedMap_ok _ _ _ _ _ _ hm
    subst hm2
    exact ⟨hb, bfsReaches_sound _ _ _ hb⟩

/-- Witness for C1: the connectivity conclusions on the concrete generated
maze `generate 5 5 0 1 0` and on the accepted U-maze fixed map. -/
theorem maze_connectivity_witness :
    (bfsReaches sampleMaze.grid sampleMaze.start sampleMaze.goal = true ∧
      Reaches sampleMaze.grid sampleMaze.start sampleMaze.goal) ∧
    (bfsReaches uMazeModel.grid uMazeModel.start uMazeModel.goal = true ∧
      Reaches uMazeModel.grid uMazeModel.start uMazeModel.goal) :=
  ⟨maze_connectivity.1 5 5 0 1 0 sampleMaze (by decide),
    maze_connectivity.2 10 9 uMazeGrid (1, 1) (7, 1) uMazeModel (by decide)⟩

end MazeWorld
